import Mathlib

/-!
Verification of the PubGraph extraction-and-ingestion pipeline.

This file gives a shallow embedding of the core of the repository:

* `src/api/src/services/neo4j-service.ts` — the `Triple` interface,
  `sanitiseRelationship`, and `ingestTriples` (with the Cypher
  `MERGE ... ON CREATE SET` semantics modelled as an explicit graph state);
* `src/api/src/pipeline.ts` — `buildPrompt`, the JSON-Lines parsing chain
  of `runPipeline`, its per-record loop, and its resource handling;
* `src/api/src/services/bedrock-service.ts` — the error classification of
  `handleBedrockError` and the rethrow in `callModel`.

External collaborators (the `JSON.parse` decoder, the remote model call,
and the success/failure of individual Neo4j write transactions) are taken
as parameters, exactly at the interface boundaries the code uses them;
everything the code itself does is embedded as executable Lean functions.
JavaScript strings are modelled as Lean strings; `split`, `trim` and the
truthiness filter `filter(Boolean)` are modelled character-exactly below.
-/

set_option maxRecDepth 100000

namespace PubGraph

/-- Model of JavaScript `rawText.split('\n')`: splits a string at every
newline character, keeping empty segments (as `String.split` does in JS). -/
def splitLinesAux : List Char → List Char → List String
  | [], acc => [String.mk acc.reverse]
  | c :: cs, acc =>
    if c = '\n' then String.mk acc.reverse :: splitLinesAux cs []
    else splitLinesAux cs (c :: acc)

/-- Model of JavaScript `s.split('\n')`. -/
def splitLines (s : String) : List String := splitLinesAux s.data []

/-- Model of JavaScript `s.trim()`: removes leading and trailing whitespace. -/
def trimChars (s : String) : String :=
  String.mk (((s.data.dropWhile Char.isWhitespace).reverse.dropWhile Char.isWhitespace).reverse)

/-- Association-list lookup, used to model keyed access both to JSON object
fields and to the name-keyed / key-tuple-keyed records of the graph store. -/
def lookupA {α β : Type} [DecidableEq α] (k : α) : List (α × β) → Option β
  | [] => Option.none
  | (k', v) :: rest => if k = k' then Option.some v else lookupA k rest

/-- JSON values, as produced by `JSON.parse` on one line of model output.
Numbers are modelled as integers (the claims only ever inspect `0`). -/
inductive JSValue where
  | null : JSValue
  | bool (b : Bool) : JSValue
  | num (n : Int) : JSValue
  | str (s : String) : JSValue
  | arr (xs : List JSValue) : JSValue
  | obj (fields : List (String × JSValue)) : JSValue
deriving Repr

/-- JavaScript truthiness of a JSON value, as used by `filter(Boolean)` in
the parsing chain of `pipeline.ts`: `null`, `false`, `0` and `""` are falsy;
every object and array is truthy. -/
def truthy : JSValue → Bool
  | JSValue.null => false
  | JSValue.bool b => b
  | JSValue.num n => n != 0
  | JSValue.str s => !s.data.isEmpty
  | JSValue.arr _ => true
  | JSValue.obj _ => true

/-- Property access `v[k]` on a parsed JSON value; `none` models `undefined`. -/
def objField : JSValue → String → Option JSValue
  | JSValue.obj fields, k => lookupA k fields
  | _, _ => Option.none

/-- Shape of `statement_qualifier` in the `Triple` interface of
`neo4j-service.ts`: `string[] | string | null`. -/
inductive SQual where
  | strs (xs : List String) : SQual
  | one (s : String) : SQual
  | null : SQual
deriving DecidableEq, Repr

/-- The `Triple` interface of `neo4j-service.ts`: the shape of a single
triple produced by the LLM. `Option.none` on a qualifier models `null`. -/
structure Triple where
  subject : String
  subject_type : String
  subject_qualifier : Option (List String)
  object : String
  object_type : String
  object_qualifier : Option (List String)
  relationship : String
  statement_qualifier : SQual
deriving DecidableEq, Repr

/-- `Neo4jService.sanitiseRelationship`:
`rel.replace(/[^A-Za-z0-9]/g, '_').toUpperCase()`. The regex replacement is
the per-character map sending non-alphanumerics to `'_'`; `toUpperCase` is
then per-character ASCII upcasing (after the replacement every character is
ASCII, so the JS Unicode upcasing agrees with `Char.toUpper`). -/
def sanitiseRelationship (rel : String) : String :=
  String.mk ((rel.data.map (fun c => if c.isAlphanum then c else '_')).map Char.toUpper)

/-- Properties set on a relationship edge at creation time by the
`ON CREATE SET r....` clause of the Cypher query in `ingestTriples`. -/
structure EdgeProps where
  subject_qualifier : Option (List String)
  object_qualifier : Option (List String)
  statement_qualifier : SQual
  source : String
deriving DecidableEq, Repr

/-- State of the Neo4j graph as far as the pipeline touches it: entity
nodes keyed by `name` carrying a `type` property, and relationship edges
keyed by the ordered tuple (subject name, edge type, object name) carrying
the create-time properties. -/
structure Graph where
  nodes : List (String × String)
  edges : List ((String × String × String) × EdgeProps)
deriving DecidableEq, Repr

/-- The empty graph. -/
def emptyGraph : Graph := ⟨[], []⟩

/-- Cypher `MERGE (x:Entity {name}) ON CREATE SET x.type = ty`: create the
node if no node with that name exists, otherwise leave the graph unchanged
(in particular leave the existing `type` property unchanged). -/
def upsertNode (g : Graph) (name ty : String) : Graph :=
  match lookupA name g.nodes with
  | Option.some _ => g
  | Option.none => { g with nodes := (name, ty) :: g.nodes }

/-- Key of the edge merged for a triple: `(s)-[r:relType]->(o)` with
`relType = sanitiseRelationship t.relationship`. -/
def edgeKey (t : Triple) : String × String × String :=
  (t.subject, sanitiseRelationship t.relationship, t.object)

/-- Properties written by `ON CREATE SET` on the edge (`?? null` on the
qualifiers is the identity here because the typed fields already carry
`null` explicitly). -/
def edgeProps (t : Triple) : EdgeProps :=
  ⟨t.subject_qualifier, t.object_qualifier, t.statement_qualifier, "LLM_PubGraph"⟩

/-- Effect of the whole Cypher statement run for one triple by
`ingestTriples`: merge the subject node, then the object node, then the
edge, each with create-only property assignment. -/
def mergeTriple (g : Graph) (t : Triple) : Graph :=
  let g1 := upsertNode g t.subject t.subject_type
  let g2 := upsertNode g1 t.object t.object_type
  match lookupA (edgeKey t) g2.edges with
  | Option.some _ => g2
  | Option.none => { g2 with edges := (edgeKey t, edgeProps t) :: g2.edges }

/-- The `console.error` message emitted by the `catch` block in
`ingestTriples` when one triple's write transaction fails. -/
def failMsg (t : Triple) (relType : String) : String :=
  "Failed to ingest triple (" ++ t.subject ++ " -[" ++ relType ++ "]-> " ++ t.object ++ "):"

/-- `Neo4jService.ingestTriples`: iterate over the triples in order; for
each, compute the sanitised relationship type and run the merge statement;
if the store rejects that transaction (`fails t = true`, modelling a thrown
storage error), log the failure and continue with the remaining triples.
Returns the final graph together with the list of error logs. The session
opened at entry is always closed by the `finally` block; per-call session
accounting is modelled at the orchestrator level. -/
def ingestTriples (fails : Triple → Bool) (g : Graph) : List Triple → Graph × List String
  | [] => (g, [])
  | t :: ts =>
    let relType := sanitiseRelationship t.relationship
    if fails t then
      let rest := ingestTriples fails g ts
      (rest.1, failMsg t relType :: rest.2)
    else
      ingestTriples fails (mergeTriple g t) ts

/-- The non-blank trimmed lines of a raw model response:
`llmOutput.split('\n').map(l => l.trim()).filter(Boolean)` in `pipeline.ts`. -/
def jsonLines (raw : String) : List String :=
  ((splitLines raw).map trimChars).filter (fun l => !l.data.isEmpty)

/-- The `console.warn` message emitted for a line on which `JSON.parse` threw. -/
def warnMsg (line : String) : String := "Skipping malformed JSON line: " ++ line

/-- The triple-parsing chain of `runPipeline`, parameterised by the
`JSON.parse` decoder `dec` (where `dec line = none` models a thrown
`SyntaxError`). Each line is decoded in a `try`/`catch` whose `catch`
returns `null`; the final `filter(Boolean)` then drops the `null`s and any
other falsy parse results. Total by construction: a bad line never aborts
the remaining lines. -/
def parseTriples (dec : String → Option JSValue) (raw : String) : List JSValue :=
  ((jsonLines raw).map (fun line =>
    match dec line with
    | Option.some v => v
    | Option.none => JSValue.null)).filter truthy

/-- The warnings emitted by the same chain: one `console.warn` per line on
which the decoder threw, in line order. -/
def parseWarnings (dec : String → Option JSValue) (raw : String) : List String :=
  (jsonLines raw).filterMap (fun line =>
    match dec line with
    | Option.some _ => Option.none
    | Option.none => Option.some (warnMsg line))

/-- String read-off of a JSON field, for the unchecked cast
`JSON.parse(line) as Triple` in `pipeline.ts` (a well-formed triple line
carries strings in these positions; other shapes do not occur in the
properties the claims inspect). -/
def asStr (v : Option JSValue) : String
  := match v with
  | Option.some (JSValue.str s) => s
  | _ => ""

/-- Qualifier read-off (`string[] | null`) of a JSON field. -/
def asQual (v : Option JSValue) : Option (List String)
  := match v with
  | Option.some (JSValue.arr xs) => Option.some (xs.map (fun x => asStr (Option.some x)))
  | _ => Option.none

/-- Statement-qualifier read-off (`string[] | string | null`) of a JSON field. -/
def asSQual (v : Option JSValue) : SQual
  := match v with
  | Option.some (JSValue.arr xs) => SQual.strs (xs.map (fun x => asStr (Option.some x)))
  | Option.some (JSValue.str s) => SQual.one s
  | _ => SQual.null

/-- The cast `JSON.parse(line) as Triple`, read off field by field as the
ingestion query later accesses the object. -/
def toTriple (v : JSValue) : Triple :=
  ⟨asStr (objField v "subject"), asStr (objField v "subject_type"),
   asQual (objField v "subject_qualifier"), asStr (objField v "object"),
   asStr (objField v "object_type"), asQual (objField v "object_qualifier"),
   asStr (objField v "relationship"), asSQual (objField v "statement_qualifier")⟩

/-- The `BedrockErrorType` union of `types/index.ts`. -/
inductive BedrockErrorType where
  | ValidationException : BedrockErrorType
  | ThrottlingException : BedrockErrorType
  | AccessDeniedException : BedrockErrorType
  | ResourceNotFoundException : BedrockErrorType
  | InternalServerException : BedrockErrorType
deriving DecidableEq, Repr

/-- A JavaScript value thrown by the Bedrock client call: an `Error` whose
`name` is one of the known Bedrock exception names (with its message), a
generic `Error` with a message, or a non-`Error` value. -/
inductive JsError where
  | bedrock (kind : BedrockErrorType) (msg : String) : JsError
  | error (msg : String) : JsError
  | other : JsError
deriving DecidableEq, Repr

/-- `BedrockService.handleBedrockError`: classifies a thrown value into a
human-readable `Error` message (the message of the `Error` the service
rethrows to its caller). -/
def handleBedrockError (modelId : String) : JsError → String
  | JsError.bedrock BedrockErrorType.ValidationException msg => "Validation error: " ++ msg
  | JsError.bedrock BedrockErrorType.ThrottlingException _ =>
      "Request was throttled. Please try again later."
  | JsError.bedrock BedrockErrorType.AccessDeniedException _ =>
      "Access denied. Please check your AWS credentials and permissions."
  | JsError.bedrock BedrockErrorType.ResourceNotFoundException _ => "Model not found: " ++ modelId
  | JsError.bedrock BedrockErrorType.InternalServerException _ =>
      "Internal server error from AWS Bedrock."
  | JsError.error msg => "Failed to call Bedrock: " ++ msg
  | JsError.other => "Unknown error occurred while calling Bedrock"

/-- `buildPrompt` of `pipeline.ts`: the template literal instructing the
model, with the title and abstract interpolated (braces of the two example
JSON lines written as escapes). -/
def buildPrompt (title abstract : String) : String :=
  "\nYou are a medical researcher. Complete the following tasks.\n\nFirst, read the title and abstract from a scientific journal below and report a short summary of the main findings of the paper.\nTitle: " ++ title ++ "\nAbstract: " ++ abstract ++ "\n\n\nReturn core triples from the title and abstract you read in. Select the subjects and objects for these core triples from the entities you listed. \nIf additional information is needed for context, add that information in the qualifiers. If there are no qualifiers, write null instead. \nFor sequence variants or mutations, the related gene should be added to the qualifier.\n\nHere is an example of the expected output format:\n\x7b\"subject\":\"Adolescents\", \"subject_type\":\"Other\", \"subject_qualifier\":[\"post-molar extraction\", \"Adolescents = 15\", \"Age (years) = 15-17\"], \"object\":\"Opioid\", \"object_type\":\"Chemical\", \"object_qualifier\":null, \"relationship\":\"taken\", \"statement_qualifier\":[\"two days post extraction\"]\x7d\n\x7b\"subject\":\"interventions\", \"subject_type\":\"Other\", \"subject_qualifier\":[\"non-pharmacological\"], \"object\":\"symptoms\", \"object_type\":\"Disease\", \"object_qualifier\":[\"pain related\", \"psychological\"], \"relationship\":\"useful in treating\", \"statement_qualifier\":[\"may\",\"cancer patients\"]\x7d\n\nThe allowed values for subject_type and object_type are: [organism, event, procedure, device, chemical, treatment, food, biological process, gene, protein, sequence variant, mutation, disease, phenotype, anatomical entity, cell, cohort, pathway, physiological process, behavior, location, other]\n  \nReturn ONLY the triple JSON lines without any extra text or formatting."

/-- One row of the parsed CSV as the loop reads it: the two fields accessed
via `record.PublicationTitle || ''` and `record.Abstract || ''`
(`none` models an absent column). -/
structure CsvRecord where
  publicationTitle : Option String
  abstract : Option String
deriving DecidableEq, Repr

/-- Observable state threaded through the per-record loop of `runPipeline`:
the graph, the `console.warn` messages, the ingestion error logs, the
argument lists of the `ingestTriples` calls made so far, and the counts of
graph-store sessions opened and closed (each `ingestTriples` call opens
exactly one session via `driver.session()` and closes it in its `finally`). -/
structure PipeState where
  graph : Graph
  warns : List String
  ingestLogs : List String
  ingestCalls : List (List Triple)
  sessionsOpened : Nat
  sessionsClosed : Nat
deriving DecidableEq, Repr

/-- The state at the start of a run. -/
def startState : PipeState := ⟨emptyGraph, [], [], [], 0, 0⟩

/-- One iteration of the per-record loop in `runPipeline`. The model call
is NOT wrapped in a `try`/`catch` in the source, so a failure aborts the
loop: this is modelled by returning `Except.error` with the classified
message and the state at the abort. On success the output is parsed and the
record is either ingested (when at least one triple was parsed) or skipped
with the `No triples extracted for record` warning. -/
def recStep (cm : String → Except String String) (dec : String → Option JSValue)
    (fails : Triple → Bool) (st : PipeState) (r : CsvRecord) :
    Except (String × PipeState) PipeState :=
  let title := r.publicationTitle.getD ""
  let ab := r.abstract.getD ""
  match cm (buildPrompt title ab) with
  | Except.error e => Except.error (e, st)
  | Except.ok out =>
    let ts := (parseTriples dec out).map toTriple
    let st1 : PipeState := { st with warns := st.warns ++ parseWarnings dec out }
    if ts.isEmpty then
      Except.ok { st1 with warns := st1.warns ++ ["No triples extracted for record"] }
    else
      let res := ingestTriples fails st1.graph ts
      Except.ok { st1 with
        graph := res.1
        ingestLogs := st1.ingestLogs ++ res.2
        ingestCalls := st1.ingestCalls ++ [ts]
        sessionsOpened := st1.sessionsOpened + 1
        sessionsClosed := st1.sessionsClosed + 1 }

/-- The per-record loop: processes records in order, stopping at the first
uncaught model-call failure. Returns the final state, the number of records
whose iteration completed, and the abort message if the loop was aborted. -/
def runRecords (cm : String → Except String String) (dec : String → Option JSValue)
    (fails : Triple → Bool) : List CsvRecord → PipeState → PipeState × Nat × Option String
  | [], st => (st, 0, Option.none)
  | r :: rs, st =>
    match recStep cm dec fails st r with
    | Except.error (e, st') => (st', 0, Option.some e)
    | Except.ok st' =>
      let rest := runRecords cm dec fails rs st'
      (rest.1, rest.2.1 + 1, rest.2.2)

/-- Outcome of a whole `runPipeline` call. `driverClosed` records that the
`finally` block closed the Neo4j driver; it is reached on success and on
abort alike. -/
structure RunResult where
  state : PipeState
  recordsProcessed : Nat
  aborted : Option String
  driverClosed : Bool
deriving DecidableEq, Repr

/-- `runPipeline` of `pipeline.ts`, after the CSV rows have been parsed
(CSV reading is the external Record Source). `raw` is the remote Bedrock
call; `BedrockService.callModel` catches its errors and rethrows the
classified message via `handleBedrockError`, which is what the loop sees. -/
def wrapModel (modelId : String) (raw : String → Except JsError String) :
    String → Except String String :=
  fun p =>
    match raw p with
    | Except.ok s => Except.ok s
    | Except.error e => Except.error (handleBedrockError modelId e)

def runPipeline (modelId : String) (raw : String → Except JsError String)
    (dec : String → Option JSValue) (fails : Triple → Bool)
    (records : List CsvRecord) : RunResult :=
  let res := runRecords (wrapModel modelId raw) dec fails records startState
  ⟨res.1, res.2.1, res.2.2, true⟩

/-! ### Helper lemmas on the graph store model -/

theorem lookupA_nil {α β : Type} [DecidableEq α] (k : α) :
    lookupA (β := β) k [] = Option.none := rfl

theorem lookupA_cons {α β : Type} [DecidableEq α] (k k' : α) (v : β) (l : List (α × β)) :
    lookupA k ((k', v) :: l) = if k = k' then Option.some v else lookupA k l := rfl

theorem upsertNode_edges (g : Graph) (n ty : String) : (upsertNode g n ty).edges = g.edges := by
  unfold upsertNode
  cases lookupA n g.nodes <;> rfl

theorem upsertNode_preserves (g : Graph) (n ty m v : String)
    (h : lookupA m g.nodes = Option.some v) :
    lookupA m (upsertNode g n ty).nodes = Option.some v := by
  unfold upsertNode
  cases hn : lookupA n g.nodes with
  | some _ => simpa using h
  | none =>
    simp only [lookupA_cons]
    by_cases hmn : m = n
    · subst hmn
      rw [h] at hn
      exact absurd hn (by simp)
    · simp [hmn, h]

theorem upsertNode_isSome (g : Graph) (n ty m : String)
    (h : (lookupA m g.nodes).isSome = true) :
    (lookupA m (upsertNode g n ty).nodes).isSome = true := by
  obtain ⟨v, hv⟩ := Option.isSome_iff_exists.mp h
  rw [upsertNode_preserves g n ty m v hv]
  rfl

theorem upsertNode_self (g : Graph) (n ty : String) :
    (lookupA n (upsertNode g n ty).nodes).isSome = true := by
  unfold upsertNode
  cases hn : lookupA n g.nodes with
  | some _ => simp [hn]
  | none => simp [lookupA_cons]

theorem mergeTriple_nodes (g : Graph) (t : Triple) :
    (mergeTriple g t).nodes
      = (upsertNode (upsertNode g t.subject t.subject_type) t.object t.object_type).nodes := by
  simp only [mergeTriple]
  split <;> rfl

theorem mergeTriple_nodes_preserves (g : Graph) (t : Triple) (m v : String)
    (h : lookupA m g.nodes = Option.some v) :
    lookupA m (mergeTriple g t).nodes = Option.some v := by
  rw [mergeTriple_nodes]
  exact upsertNode_preserves (upsertNode g t.subject t.subject_type) t.object t.object_type m v
    (upsertNode_preserves g t.subject t.subject_type m v h)

theorem mergeTriple_subject_isSome (g : Graph) (t : Triple) :
    (lookupA t.subject (mergeTriple g t).nodes).isSome = true := by
  rw [mergeTriple_nodes]
  exact upsertNode_isSome (upsertNode g t.subject t.subject_type) t.object t.object_type
    t.subject (upsertNode_self g t.subject t.subject_type)

theorem mergeTriple_object_isSome (g : Graph) (t : Triple) :
    (lookupA t.object (mergeTriple g t).nodes).isSome = true := by
  rw [mergeTriple_nodes]
  exact upsertNode_self (upsertNode g t.subject t.subject_type) t.object t.object_type

theorem mergeTriple_edge_isSome (g : Graph) (t : Triple) :
    (lookupA (edgeKey t) (mergeTriple g t).edges).isSome = true := by
  simp only [mergeTriple]
  split
  · rename_i he
    simp [he]
  · simp [lookupA_cons]

theorem mergeTriple_of_present (g : Graph) (t : Triple)
    (hs : (lookupA t.subject g.nodes).isSome = true)
    (ho : (lookupA t.object g.nodes).isSome = true)
    (he : (lookupA (edgeKey t) g.edges).isSome = true) :
    mergeTriple g t = g := by
  obtain ⟨vs, hvs⟩ := Option.isSome_iff_exists.mp hs
  obtain ⟨vo, hvo⟩ := Option.isSome_iff_exists.mp ho
  obtain ⟨ve, hve⟩ := Option.isSome_iff_exists.mp he
  simp only [mergeTriple, upsertNode, hvs, hvo, hve]

theorem mergeTriple_idem (g : Graph) (t : Triple) :
    mergeTriple (mergeTriple g t) t = mergeTriple g t :=
  mergeTriple_of_present (mergeTriple g t) t (mergeTriple_subject_isSome g t)
    (mergeTriple_object_isSome g t) (mergeTriple_edge_isSome g t)

theorem mergeTriple_edges_length_new (g : Graph) (t : Triple)
    (h : lookupA (edgeKey t) g.edges = Option.none) :
    (mergeTriple g t).edges.length = g.edges.length + 1 := by
  simp only [mergeTriple]
  split
  · rename_i he
    rw [upsertNode_edges, upsertNode_edges, h] at he
    exact absurd he (by simp)
  · simp [upsertNode_edges]

theorem mergeTriple_edge_lookup_other (g : Graph) (t : Triple)
    (k : String × String × String) (h : k ≠ edgeKey t) :
    lookupA k (mergeTriple g t).edges = lookupA k g.edges := by
  simp only [mergeTriple]
  split
  · simp [upsertNode_edges]
  · simp [lookupA_cons, upsertNode_edges, h]

theorem ingestTriples_graph_filter (fails : Triple → Bool) (g : Graph) (ts : List Triple) :
    (ingestTriples fails g ts).1
      = (ingestTriples (fun _ => false) g (ts.filter (fun t => !fails t))).1 := by
  induction ts generalizing g with
  | nil => rfl
  | cons t ts ih =>
    cases hf : fails t with
    | true => simp [ingestTriples, hf, ih]
    | false => simp [ingestTriples, hf, ih]

theorem ingestTriples_logs (fails : Triple → Bool) (g : Graph) (ts : List Triple) :
    (ingestTriples fails g ts).2
      = (ts.filter fails).map (fun t => failMsg t (sanitiseRelationship t.relationship)) := by
  induction ts generalizing g with
  | nil => rfl
  | cons t ts ih =>
    cases hf : fails t with
    | true => simp [ingestTriples, hf, ih]
    | false => simp [ingestTriples, hf, ih]

theorem ingestTriples_edges_count (ts : List Triple) :
    ∀ g : Graph, ((ts.map edgeKey).Nodup) →
    (∀ t ∈ ts, lookupA (edgeKey t) g.edges = Option.none) →
    ((ingestTriples (fun _ => false) g ts).1).edges.length = g.edges.length + ts.length := by
  induction ts with
  | nil => intro g _ _; rfl
  | cons t ts ih =>
    intro g hnd hg
    have hstep : ingestTriples (fun _ => false) g (t :: ts)
        = ingestTriples (fun _ => false) (mergeTriple g t) ts := by
      simp [ingestTriples]
    rw [hstep]
    have hnd' : (ts.map edgeKey).Nodup := (List.nodup_cons.mp (by simpa using hnd)).2
    have hnotmem : edgeKey t ∉ ts.map edgeKey := (List.nodup_cons.mp (by simpa using hnd)).1
    have hg' : ∀ t' ∈ ts, lookupA (edgeKey t') (mergeTriple g t).edges = Option.none := by
      intro t' ht'
      have hne : edgeKey t' ≠ edgeKey t := by
        intro heq
        exact hnotmem (heq ▸ List.mem_map_of_mem edgeKey ht')
      rw [mergeTriple_edge_lookup_other g t _ hne]
      exact hg t' (List.mem_cons_of_mem t ht')
    rw [ih (mergeTriple g t) hnd' hg',
      mergeTriple_edges_length_new g t (hg t (List.mem_cons_self t ts))]
    simp [List.length_cons]
    omega

theorem length_filter_split {α : Type} (p : α → Bool) (l : List α) :
    (l.filter p).length + (l.filter (fun a => !p a)).length = l.length := by
  induction l with
  | nil => rfl
  | cons a l ih =>
    cases h : p a <;> simp [List.filter, h] <;> omega

/-! ### Helper lemmas for the sanitised relationship type -/

theorem isLower_toNat (c : Char) (h : c.isLower = true) : 97 ≤ c.toNat ∧ c.toNat ≤ 122 := by
  simp [Char.isLower, decide_eq_true_eq] at h
  obtain ⟨h1, h2⟩ := h
  rw [UInt32.le_def, BitVec.le_def] at h1 h2
  exact ⟨h1, h2⟩

theorem upper_of_shifted (n : Nat) (h1 : 97 ≤ n) (h2 : n ≤ 122) :
    (Char.ofNat (n - 32)).isUpper = true := by
  interval_cases n <;> decide

theorem sanitise_char_shape (c0 : Char) :
    ((Char.toUpper (if c0.isAlphanum then c0 else '_')).isUpper
      || (Char.toUpper (if c0.isAlphanum then c0 else '_')).isDigit
      || (Char.toUpper (if c0.isAlphanum then c0 else '_') == '_')) = true := by
  by_cases ha : c0.isAlphanum = true
  · rw [if_pos ha]
    by_cases hl : 97 ≤ c0.toNat ∧ c0.toNat ≤ 122
    · have : Char.toUpper c0 = Char.ofNat (c0.toNat - 32) := by
        simp [Char.toUpper, hl.1, hl.2]
      rw [this, upper_of_shifted c0.toNat hl.1 hl.2]
      rfl
    · have hup : Char.toUpper c0 = c0 := by
        simp only [Char.toUpper]
        rw [if_neg hl]
      rw [hup]
      have hlow : c0.isLower = false := by
        cases hlc : c0.isLower with
        | false => rfl
        | true => exact absurd (isLower_toNat c0 hlc) hl
      simp only [Char.isAlphanum, Char.isAlpha, hlow, Bool.or_false] at ha
      cases hu : c0.isUpper with
      | true => simp [hu]
      | false =>
        rw [hu] at ha
        simp only [Bool.false_or] at ha
        simp [ha]
  · rw [if_neg ha]
    decide

/-- Helper: the `filter(Boolean)` step keeps exactly the truthy decoded
values, i.e. agrees with filtering the decoder output directly. -/
theorem chain_eq_filterMap (dec : String → Option JSValue) (L : List String) :
    (L.map (fun line =>
        match dec line with
        | Option.some v => v
        | Option.none => JSValue.null)).filter truthy
      = L.filterMap (fun l =>
          match dec l with
          | Option.some v => if truthy v then Option.some v else Option.none
          | Option.none => Option.none) := by
  induction L with
  | nil => rfl
  | cons l L ih =>
    cases hd : dec l with
    | none => simpa [hd, truthy] using ih
    | some v =>
      cases hv : truthy v with
      | true => simpa [hd, hv] using ih
      | false => simpa [hd, hv] using ih

/-- Helper: when every successfully decoded line is truthy, the chain
returns exactly the decoded values of the decodable lines, in order. -/
theorem chain_eq_of_truthy (dec : String → Option JSValue) (L : List String)
    (h : (L.all fun l =>
        match dec l with
        | Option.some v => truthy v
        | Option.none => true) = true) :
    (L.map (fun line =>
        match dec line with
        | Option.some v => v
        | Option.none => JSValue.null)).filter truthy = L.filterMap dec := by
  rw [chain_eq_filterMap]
  induction L with
  | nil => rfl
  | cons l L ih =>
    rw [List.all_cons, Bool.and_eq_true] at h
    cases hd : dec l with
    | none => simpa [hd] using ih h.2
    | some v =>
      have hv : truthy v = true := by
        have := h.1
        rwa [hd] at this
      simpa [hd, hv] using ih h.2

/-- Helper: the warnings are exactly one `warnMsg` per undecodable line. -/
theorem warnings_eq (dec : String → Option JSValue) (L : List String) :
    (L.filterMap (fun line =>
        match dec line with
        | Option.some _ => Option.none
        | Option.none => Option.some (warnMsg line)))
      = (L.filter (fun l => (dec l).isNone)).map warnMsg := by
  induction L with
  | nil => rfl
  | cons l L ih =>
    cases hd : dec l with
    | none => simpa [hd] using ih
    | some v => simpa [hd] using ih

/-! ### Helper lemmas on the orchestrator loop -/

theorem recStep_ok_exists (cm : String → Except String String) (dec : String → Option JSValue)
    (fails : Triple → Bool) (st : PipeState) (r : CsvRecord) (out : String)
    (h : cm (buildPrompt (r.publicationTitle.getD "") (r.abstract.getD "")) = Except.ok out) :
    ∃ st', recStep cm dec fails st r = Except.ok st' := by
  simp only [recStep]
  rw [h]
  dsimp only
  split
  · exact ⟨_, rfl⟩
  · exact ⟨_, rfl⟩

theorem runRecords_abort (cm : String → Except String String) (dec : String → Option JSValue)
    (fails : Triple → Bool) (r : CsvRecord) (rest : List CsvRecord) (msg : String)
    (hfail : cm (buildPrompt (r.publicationTitle.getD "") (r.abstract.getD ""))
      = Except.error msg) :
    ∀ (pre : List CsvRecord) (st : PipeState),
      (∀ rc ∈ pre, ∃ out,
        cm (buildPrompt (rc.publicationTitle.getD "") (rc.abstract.getD "")) = Except.ok out) →
      (runRecords cm dec fails (pre ++ r :: rest) st).2 = (pre.length, Option.some msg) := by
  intro pre
  induction pre with
  | nil =>
    intro st _
    have hstep : recStep cm dec fails st r = Except.error (msg, st) := by
      simp only [recStep]
      rw [hfail]
    simp [runRecords, hstep]
  | cons rc pre ih =>
    intro st hpre
    obtain ⟨out, hout⟩ := hpre rc (List.mem_cons_self rc pre)
    obtain ⟨st', hst'⟩ := recStep_ok_exists cm dec fails st rc out hout
    have h2 := ih st' (fun rc' h' => hpre rc' (List.mem_cons_of_mem rc h'))
    simp [runRecords, hst', h2]

/-- Session-accounting invariant of the loop state: every opened store
session has been closed, and one session was opened per ingestion call. -/
def SessionInv (st : PipeState) : Prop :=
  st.sessionsClosed = st.sessionsOpened ∧ st.sessionsOpened = st.ingestCalls.length

theorem recStep_inv (cm : String → Except String String) (dec : String → Option JSValue)
    (fails : Triple → Bool) (st : PipeState) (r : CsvRecord) (h : SessionInv st) :
    (match recStep cm dec fails st r with
     | Except.ok st' => SessionInv st'
     | Except.error (_, st') => SessionInv st') := by
  simp only [recStep]
  split
  · rename_i st' heq
    split at heq
    · exact absurd heq (by simp)
    · split at heq
      · cases heq
        exact ⟨h.1, h.2⟩
      · cases heq
        refine ⟨by simp [h.1], ?_⟩
        simp [h.2]
  · rename_i p heq
    obtain ⟨e, st'⟩ := p
    split at heq
    · cases heq
      exact h
    · split at heq <;> exact absurd heq (by simp)

theorem runRecords_inv (cm : String → Except String String) (dec : String → Option JSValue)
    (fails : Triple → Bool) :
    ∀ (rs : List CsvRecord) (st : PipeState), SessionInv st →
      SessionInv (runRecords cm dec fails rs st).1 := by
  intro rs
  induction rs with
  | nil => intro st h; exact h
  | cons r rs ih =>
    intro st h
    have hstep := recStep_inv cm dec fails st r h
    cases hrec : recStep cm dec fails st r with
    | error p =>
      rw [hrec] at hstep
      obtain ⟨e, st'⟩ := p
      simpa [runRecords, hrec] using hstep
    | ok st' =>
      rw [hrec] at hstep
      simpa [runRecords, hrec] using ih st' hstep

theorem wrapModel_ok (modelId : String) (raw : String → Except JsError String)
    (p out : String) (h : raw p = Except.ok out) :
    wrapModel modelId raw p = Except.ok out := by
  unfold wrapModel
  rw [h]

theorem wrapModel_error (modelId : String) (raw : String → Except JsError String)
    (p : String) (e : JsError) (h : raw p = Except.error e) :
    wrapModel modelId raw p = Except.error (handleBedrockError modelId e) := by
  unfold wrapModel
  rw [h]

/-! ### Concrete fixtures used by the witnesses and counterexamples -/

/-- A well-formed triple line as the model would emit it. -/
def jsonLine1 : String :=
  "\x7b\"subject\":\"Aspirin\",\"subject_type\":\"chemical\",\"subject_qualifier\":null,\"object\":\"inflammation\",\"object_type\":\"disease\",\"object_qualifier\":null,\"relationship\":\"reduces\",\"statement_qualifier\":null\x7d"

/-- The JSON object `JSON.parse` yields on `jsonLine1`. -/
def tripleJS1 : JSValue :=
  JSValue.obj [("subject", JSValue.str "Aspirin"), ("subject_type", JSValue.str "chemical"),
    ("subject_qualifier", JSValue.null), ("object", JSValue.str "inflammation"),
    ("object_type", JSValue.str "disease"), ("object_qualifier", JSValue.null),
    ("relationship", JSValue.str "reduces"), ("statement_qualifier", JSValue.null)]

/-- A second well-formed triple line. -/
def jsonLine2 : String :=
  "\x7b\"subject\":\"Metformin\",\"subject_type\":\"chemical\",\"subject_qualifier\":[\"oral\"],\"object\":\"diabetes\",\"object_type\":\"disease\",\"object_qualifier\":null,\"relationship\":\"treats\",\"statement_qualifier\":[\"first-line\"]\x7d"

/-- The JSON object `JSON.parse` yields on `jsonLine2`. -/
def tripleJS2 : JSValue :=
  JSValue.obj [("subject", JSValue.str "Metformin"), ("subject_type", JSValue.str "chemical"),
    ("subject_qualifier", JSValue.arr [JSValue.str "oral"]),
    ("object", JSValue.str "diabetes"), ("object_type", JSValue.str "disease"),
    ("object_qualifier", JSValue.null), ("relationship", JSValue.str "treats"),
    ("statement_qualifier", JSValue.arr [JSValue.str "first-line"])]

/-- A concrete instance of the `JSON.parse` interface: decodes the two
triple lines above and the falsy JSON literals, and throws (returns `none`)
on anything else. -/
def demoDecode : String → Option JSValue := fun l =>
  if l = jsonLine1 then Option.some tripleJS1
  else if l = jsonLine2 then Option.some tripleJS2
  else if l = "null" then Option.some JSValue.null
  else if l = "0" then Option.some (JSValue.num 0)
  else if l = "false" then Option.some (JSValue.bool false)
  else Option.none

/-- Typed triples used by the graph-layer witnesses. -/
def tripleA : Triple :=
  ⟨"Aspirin", "chemical", Option.none, "inflammation", "disease", Option.none, "reduces",
    SQual.null⟩

def tripleB : Triple :=
  ⟨"Metformin", "chemical", Option.some ["oral"], "diabetes", "disease", Option.none, "treats",
    SQual.strs ["first-line"]⟩

def tripleC : Triple :=
  ⟨"TP53", "gene", Option.none, "cancer", "disease", Option.none, "associated with", SQual.null⟩

/-- A triple re-mentioning the entity `Aspirin` with a different type. -/
def tripleD : Triple :=
  ⟨"Aspirin", "drug", Option.none, "pain", "phenotype", Option.none, "relieves", SQual.null⟩

/-- A graph that already holds an `Aspirin` node with type `chemical`. -/
def g0 : Graph := ⟨[("Aspirin", "chemical")], []⟩

/-- A store oracle that rejects exactly the triples whose subject is
`Metformin`. -/
def demoFails : Triple → Bool := fun t => t.subject == "Metformin"

/-- Mixed model output: two valid JSON lines around one malformed line. -/
def rawMixed : String := jsonLine1 ++ "\nnot json\n" ++ jsonLine2

/-- Model output whose first three lines are valid JSON for falsy values. -/
def rawFalsy : String := "null\n0\nfalse\n" ++ jsonLine1

/-- Well-formed model output: two triple lines separated by a blank line. -/
def rawWell : String := jsonLine1 ++ "\n \n" ++ jsonLine2

/-- CSV records used by the orchestrator witnesses. -/
def rec1 : CsvRecord :=
  ⟨Option.some "Aspirin reduces inflammation in mice", Option.some "We studied aspirin."⟩

def rec2 : CsvRecord := ⟨Option.some "Metformin in diabetes", Option.some "A cohort study."⟩

def recA : CsvRecord := ⟨Option.some "A", Option.some "a"⟩

def recB : CsvRecord := ⟨Option.some "B", Option.some "b"⟩

/-- A remote model that always answers with one triple line. -/
def rawOk1 : String → Except JsError String := fun _ => Except.ok jsonLine1

/-- A remote model that always throws a throttling error. -/
def rawFail : String → Except JsError String :=
  fun _ => Except.error (JsError.bedrock BedrockErrorType.ThrottlingException "Rate exceeded")

/-- A remote model that answers record A's prompt and fails on any other. -/
def rawAB : String → Except JsError String := fun p =>
  if p = buildPrompt "A" "a" then Except.ok jsonLine1
  else Except.error (JsError.error "network down")

/-- A wrapped extraction client that always succeeds with one triple line. -/
def cmOk1 : String → Except String String := fun _ => Except.ok jsonLine1

/-! ### Claims -/

/-- C5: for every relationship string, the derived edge-type identifier
produced by `sanitiseRelationship` contains only uppercase letters, digits
and the designated separator `'_'`; and it is non-empty for every non-empty
input containing at least one alphanumeric character. -/
theorem claim5_sanitised_edge_type (rel : String)
    (h : rel.data.any Char.isAlphanum = true) :
    ((sanitiseRelationship rel).data.all
        (fun c => c.isUpper || c.isDigit || (c == '_'))) = true
    ∧ sanitiseRelationship rel ≠ "" := by
  have hdata : (sanitiseRelationship rel).data
      = (rel.data.map (fun c => if c.isAlphanum then c else '_')).map Char.toUpper := rfl
  constructor
  · rw [List.all_eq_true]
    intro c hc
    rw [hdata] at hc
    obtain ⟨c1, hc1, rfl⟩ := List.mem_map.mp hc
    obtain ⟨c0, hc0, rfl⟩ := List.mem_map.mp hc1
    exact sanitise_char_shape c0
  · intro heq
    have hd := congrArg String.data heq
    rw [hdata] at hd
    have hd2 : (rel.data.map (fun c => if c.isAlphanum then c else '_')).map Char.toUpper
        = ([] : List Char) := hd
    have h0 : rel.data = [] := List.map_eq_nil_iff.mp (List.map_eq_nil_iff.mp hd2)
    rw [h0] at h
    simp at h

/-- C5 witness: the relationship `binds to` has an alphanumeric character,
and its sanitised edge type is made of uppercase/digit/underscore characters
and is non-empty. -/
theorem claim5_witness :
    ("binds to".data.any Char.isAlphanum = true)
    ∧ (((sanitiseRelationship "binds to").data.all
          (fun c => c.isUpper || c.isDigit || (c == '_'))) = true
        ∧ sanitiseRelationship "binds to" ≠ "") :=
  ⟨by decide, claim5_sanitised_edge_type "binds to" (by decide)⟩

/-- C4: the `type` property of an entity node is set only at creation
(`ON CREATE SET`): any node present before a call to `ingestTriples` keeps
exactly its old `type` after the call, whatever triples are ingested and
whichever of them the store rejects. -/
theorem claim4_type_create_only (fails : Triple → Bool) (g : Graph) (ts : List Triple)
    (n v : String) (h : lookupA n g.nodes = Option.some v) :
    lookupA n ((ingestTriples fails g ts).1).nodes = Option.some v := by
  induction ts generalizing g with
  | nil => exact h
  | cons t ts ih =>
    cases hf : fails t with
    | true =>
      have hstep : (ingestTriples fails g (t :: ts)).1 = (ingestTriples fails g ts).1 := by
        simp [ingestTriples, hf]
      rw [hstep]
      exact ih g h
    | false =>
      have hstep : (ingestTriples fails g (t :: ts)).1
          = (ingestTriples fails (mergeTriple g t) ts).1 := by
        simp [ingestTriples, hf]
      rw [hstep]
      exact ih (mergeTriple g t) (mergeTriple_nodes_preserves g t n v h)

/-- C4 witness: a pre-existing `Aspirin` node typed `chemical` keeps that
type after ingesting a triple that re-mentions `Aspirin` with type `drug`. -/
theorem claim4_witness :
    lookupA "Aspirin" g0.nodes = Option.some "chemical"
    ∧ lookupA "Aspirin" ((ingestTriples (fun _ => false) g0 [tripleD]).1).nodes
        = Option.some "chemical" :=
  ⟨by decide, claim4_type_create_only (fun _ => false) g0 [tripleD] "Aspirin" "chemical" (by decide)⟩

/-- C3: ingesting the same triple twice is idempotent — the second merge is
a no-op on any graph — and, starting from the empty graph, ingesting
`[t, t]` leaves exactly one subject node, one object node and one edge,
whose properties are the ones of the first ingestion. -/
theorem claim3_ingest_idempotent (t : Triple) (h : t.subject ≠ t.object) :
    (∀ g, mergeTriple (mergeTriple g t) t = mergeTriple g t)
    ∧ (ingestTriples (fun _ => false) ((ingestTriples (fun _ => false) emptyGraph [t]).1) [t]).1
        = (ingestTriples (fun _ => false) emptyGraph [t]).1
    ∧ ((ingestTriples (fun _ => false) emptyGraph [t, t]).1).nodes.length = 2
    ∧ ((ingestTriples (fun _ => false) emptyGraph [t, t]).1).edges.length = 1
    ∧ lookupA (edgeKey t) ((ingestTriples (fun _ => false) emptyGraph [t, t]).1).edges
        = Option.some (edgeProps t)
    ∧ lookupA t.subject ((ingestTriples (fun _ => false) emptyGraph [t, t]).1).nodes
        = Option.some t.subject_type
    ∧ lookupA t.object ((ingestTriples (fun _ => false) emptyGraph [t, t]).1).nodes
        = Option.some t.object_type := by
  have hne : t.object ≠ t.subject := fun heq => h heq.symm
  have hm : mergeTriple emptyGraph t
      = Graph.mk [(t.object, t.object_type), (t.subject, t.subject_type)]
          [(edgeKey t, edgeProps t)] := by
    simp [mergeTriple, upsertNode, emptyGraph, lookupA, hne]
  have h22 : (ingestTriples (fun _ => false) emptyGraph [t, t]).1
      = mergeTriple emptyGraph t := by
    show (ingestTriples (fun _ => false) emptyGraph [t, t]).1 = _
    simp [ingestTriples, mergeTriple_idem]
  refine ⟨fun g => mergeTriple_idem g t, ?_, ?_, ?_, ?_, ?_, ?_⟩
  · simp [ingestTriples, mergeTriple_idem]
  · rw [h22, hm]
    rfl
  · rw [h22, hm]
    rfl
  · rw [h22, hm]
    simp [lookupA]
  · rw [h22, hm]
    simp [lookupA, h]
  · rw [h22, hm]
    simp [lookupA, hne]

/-- C3 witness: the concrete triple `tripleA` has distinct subject and
object, and ingesting it twice from the empty graph yields one edge and two
nodes with the first-ingestion properties. -/
theorem claim3_witness :
    tripleA.subject ≠ tripleA.object
    ∧ ((∀ g, mergeTriple (mergeTriple g tripleA) tripleA = mergeTriple g tripleA)
      ∧ (ingestTriples (fun _ => false)
            ((ingestTriples (fun _ => false) emptyGraph [tripleA]).1) [tripleA]).1
          = (ingestTriples (fun _ => false) emptyGraph [tripleA]).1
      ∧ ((ingestTriples (fun _ => false) emptyGraph [tripleA, tripleA]).1).nodes.length = 2
      ∧ ((ingestTriples (fun _ => false) emptyGraph [tripleA, tripleA]).1).edges.length = 1
      ∧ lookupA (edgeKey tripleA)
            ((ingestTriples (fun _ => false) emptyGraph [tripleA, tripleA]).1).edges
          = Option.some (edgeProps tripleA)
      ∧ lookupA tripleA.subject
            ((ingestTriples (fun _ => false) emptyGraph [tripleA, tripleA]).1).nodes
          = Option.some tripleA.subject_type
      ∧ lookupA tripleA.object
            ((ingestTriples (fun _ => false) emptyGraph [tripleA, tripleA]).1).nodes
          = Option.some tripleA.object_type) :=
  ⟨by decide, claim3_ingest_idempotent tripleA (by decide)⟩

/-- C1: per-triple isolation in `ingestTriples` — the resulting graph is the
one obtained by ingesting exactly the non-rejected triples, each rejected
triple produces one error log naming its subject, sanitised edge-type and
object, and a batch of triples with pairwise distinct fresh edge keys of
which exactly one is store-rejected creates exactly `N - 1` new edges. -/
theorem claim1_per_triple_isolation (fails : Triple → Bool) (g : Graph) (ts : List Triple)
    (hnd : (ts.map edgeKey).Nodup)
    (h1 : (ts.filter fails).length = 1)
    (hg : ∀ t ∈ ts, lookupA (edgeKey t) g.edges = Option.none) :
    (ingestTriples fails g ts).1
        = (ingestTriples (fun _ => false) g (ts.filter (fun t => !fails t))).1
    ∧ (ingestTriples fails g ts).2
        = (ts.filter fails).map (fun t => failMsg t (sanitiseRelationship t.relationship))
    ∧ ((ingestTriples fails g ts).1).edges.length = g.edges.length + (ts.length - 1) := by
  refine ⟨ingestTriples_graph_filter fails g ts, ingestTriples_logs fails g ts, ?_⟩
  rw [ingestTriples_graph_filter fails g ts]
  have hsub : List.Sublist (ts.filter (fun t => !fails t)) ts := List.filter_sublist ts
  have hnd' : ((ts.filter (fun t => !fails t)).map edgeKey).Nodup :=
    List.Nodup.sublist (List.Sublist.map edgeKey hsub) hnd
  have hg' : ∀ t ∈ ts.filter (fun t => !fails t), lookupA (edgeKey t) g.edges = Option.none :=
    fun t ht => hg t (List.mem_of_mem_filter ht)
  rw [ingestTriples_edges_count (ts.filter (fun t => !fails t)) g hnd' hg']
  have hsplit := length_filter_split fails ts
  omega

/-- C1 witness: ingesting three triples with distinct edge keys into the
empty graph, where the store rejects exactly the `Metformin` triple, yields
the graph of the two accepted triples, one failure log, and two edges. -/
theorem claim1_witness :
    (([tripleA, tripleB, tripleC].map edgeKey).Nodup
      ∧ ([tripleA, tripleB, tripleC].filter demoFails).length = 1
      ∧ ∀ t ∈ [tripleA, tripleB, tripleC], lookupA (edgeKey t) emptyGraph.edges = Option.none)
    ∧ ((ingestTriples demoFails emptyGraph [tripleA, tripleB, tripleC]).1
        = (ingestTriples (fun _ => false) emptyGraph
            ([tripleA, tripleB, tripleC].filter (fun t => !demoFails t))).1
      ∧ (ingestTriples demoFails emptyGraph [tripleA, tripleB, tripleC]).2
        = ([tripleA, tripleB, tripleC].filter demoFails).map
            (fun t => failMsg t (sanitiseRelationship t.relationship))
      ∧ ((ingestTriples demoFails emptyGraph [tripleA, tripleB, tripleC]).1).edges.length
        = emptyGraph.edges.length + ([tripleA, tripleB, tripleC].length - 1)) :=
  ⟨⟨by decide, by decide, by decide⟩,
    claim1_per_triple_isolation demoFails emptyGraph [tripleA, tripleB, tripleC]
      (by decide) (by decide) (by decide)⟩

/-- Helper: when every line of a block decodes to a JSON object, the chain
keeps every decoded object (objects are truthy). -/
theorem chain_all_obj (dec : String → Option JSValue) (L : List String)
    (h : (L.all fun l =>
        match dec l with
        | Option.some (JSValue.obj _) => true
        | _ => false) = true) :
    (L.map (fun line =>
        match dec line with
        | Option.some v => v
        | Option.none => JSValue.null)).filter truthy
      = L.map (fun line =>
          match dec line with
          | Option.some v => v
          | Option.none => JSValue.null) := by
  induction L with
  | nil => rfl
  | cons l L ih =>
    rw [List.all_cons, Bool.and_eq_true] at h
    have h1 := h.1
    cases hd : dec l with
    | none =>
      rw [hd] at h1
      exact absurd h1 (by simp)
    | some v =>
      rw [hd] at h1
      cases v with
      | obj fs => simpa [hd, truthy] using ih h.2
      | null => exact absurd h1 (by simp)
      | bool b => exact absurd h1 (by simp)
      | num n => exact absurd h1 (by simp)
      | str s => exact absurd h1 (by simp)
      | arr xs => exact absurd h1 (by simp)

/-- C2: on a block mixing decodable and undecodable lines (every decodable
line yielding a truthy value, as every triple object is), the parsing chain
returns exactly the values decoded from the decodable lines in order, emits
one warning embedding each offending line, and is total — one bad line
never aborts the remaining lines. -/
theorem claim2_parse_mixed (dec : String → Option JSValue) (raw : String)
    (h : ((jsonLines raw).all fun l =>
        match dec l with
        | Option.some v => truthy v
        | Option.none => true) = true) :
    parseTriples dec raw = (jsonLines raw).filterMap dec
    ∧ parseWarnings dec raw = ((jsonLines raw).filter (fun l => (dec l).isNone)).map warnMsg
    ∧ ∀ w ∈ parseWarnings dec raw, ∃ l, l ∈ jsonLines raw ∧ dec l = Option.none ∧ w = warnMsg l := by
  have h2 : parseWarnings dec raw
      = ((jsonLines raw).filter (fun l => (dec l).isNone)).map warnMsg := by
    unfold parseWarnings
    exact warnings_eq dec (jsonLines raw)
  refine ⟨?_, h2, ?_⟩
  · unfold parseTriples
    exact chain_eq_of_truthy dec (jsonLines raw) h
  · intro w hw
    rw [h2] at hw
    obtain ⟨l, hl, rfl⟩ := List.mem_map.mp hw
    refine ⟨l, List.mem_of_mem_filter hl, ?_, rfl⟩
    have := List.of_mem_filter hl
    simpa [Option.isNone_iff_eq_none] using this

/-- C2 witness: a block with one malformed line between two valid triple
lines parses to exactly the two decoded triples and one warning naming the
bad line. -/
theorem claim2_witness :
    (((jsonLines rawMixed).all fun l =>
        match demoDecode l with
        | Option.some v => truthy v
        | Option.none => true) = true)
    ∧ (parseTriples demoDecode rawMixed = (jsonLines rawMixed).filterMap demoDecode
      ∧ parseWarnings demoDecode rawMixed
          = ((jsonLines rawMixed).filter (fun l => (demoDecode l).isNone)).map warnMsg
      ∧ ∀ w ∈ parseWarnings demoDecode rawMixed,
          ∃ l, l ∈ jsonLines rawMixed ∧ demoDecode l = Option.none ∧ w = warnMsg l) :=
  ⟨by decide, claim2_parse_mixed demoDecode rawMixed (by decide)⟩

/-- C6: on a well-formed block — every non-blank trimmed line decodes to a
JSON object — the chain returns one value per non-blank line in the
original order, and each returned value is the decoded object itself, so a
`null` qualifier field is preserved as `null`. -/
theorem claim6_parse_wellformed (dec : String → Option JSValue) (raw : String)
    (h : ((jsonLines raw).all fun l =>
        match dec l with
        | Option.some (JSValue.obj _) => true
        | _ => false) = true) :
    parseTriples dec raw = (jsonLines raw).map (fun l =>
        match dec l with
        | Option.some v => v
        | Option.none => JSValue.null)
    ∧ (parseTriples dec raw).length = (jsonLines raw).length
    ∧ (∀ l ∈ jsonLines raw, ∀ fs, dec l = Option.some (JSValue.obj fs) →
        JSValue.obj fs ∈ parseTriples dec raw)
    ∧ (∀ l ∈ jsonLines raw, ∀ fs, dec l = Option.some (JSValue.obj fs) →
        lookupA "subject_qualifier" fs = Option.some JSValue.null →
        ∃ v ∈ parseTriples dec raw, objField v "subject_qualifier" = Option.some JSValue.null) := by
  have hmain : parseTriples dec raw = (jsonLines raw).map (fun l =>
      match dec l with
      | Option.some v => v
      | Option.none => JSValue.null) := by
    unfold parseTriples
    exact chain_all_obj dec (jsonLines raw) h
  have hmem : ∀ l ∈ jsonLines raw, ∀ fs, dec l = Option.some (JSValue.obj fs) →
      JSValue.obj fs ∈ parseTriples dec raw := by
    intro l hl fs hfs
    rw [hmain]
    exact List.mem_map.mpr ⟨l, hl, by rw [hfs]⟩
  refine ⟨hmain, by rw [hmain, List.length_map], hmem, ?_⟩
  intro l hl fs hfs hq
  exact ⟨JSValue.obj fs, hmem l hl fs hfs, by simpa [objField] using hq⟩

/-- C6 witness: a block of two well-formed triple lines separated by a
blank line parses to one object per non-blank line in order, and the
`null` subject qualifier of the first line is preserved. -/
theorem claim6_witness :
    (((jsonLines rawWell).all fun l =>
        match demoDecode l with
        | Option.some (JSValue.obj _) => true
        | _ => false) = true)
    ∧ (parseTriples demoDecode rawWell = (jsonLines rawWell).map (fun l =>
          match demoDecode l with
          | Option.some v => v
          | Option.none => JSValue.null)
      ∧ (parseTriples demoDecode rawWell).length = (jsonLines rawWell).length
      ∧ (∀ l ∈ jsonLines rawWell, ∀ fs, demoDecode l = Option.some (JSValue.obj fs) →
          JSValue.obj fs ∈ parseTriples demoDecode rawWell)
      ∧ (∀ l ∈ jsonLines rawWell, ∀ fs, demoDecode l = Option.some (JSValue.obj fs) →
          lookupA "subject_qualifier" fs = Option.some JSValue.null →
          ∃ v ∈ parseTriples demoDecode rawWell,
            objField v "subject_qualifier" = Option.some JSValue.null)) :=
  ⟨by decide, claim6_parse_wellformed demoDecode rawWell (by decide)⟩

/-- C10: a line whose trimmed text is valid JSON for a falsy value is
discarded by the final `filter(Boolean)` without any warning — when every
line decodes, no warning at all is emitted, every returned value is truthy,
and the returned values are exactly the truthy decodes. -/
theorem claim10_falsy_lines (dec : String → Option JSValue) (raw : String)
    (h : ((jsonLines raw).all fun l => (dec l).isSome) = true) :
    parseWarnings dec raw = []
    ∧ (∀ v ∈ parseTriples dec raw, truthy v = true)
    ∧ parseTriples dec raw = (jsonLines raw).filterMap (fun l =>
        match dec l with
        | Option.some v => if truthy v then Option.some v else Option.none
        | Option.none => Option.none) := by
  refine ⟨?_, ?_, ?_⟩
  · have hfil : (jsonLines raw).filter (fun l => (dec l).isNone) = [] := by
      rw [List.filter_eq_nil_iff]
      intro l hl
      have hs := List.all_eq_true.mp h l hl
      simp only [Option.isNone]
      cases hd : dec l with
      | none => rw [hd] at hs; exact absurd hs (by simp)
      | some v => simp
    unfold parseWarnings
    rw [warnings_eq dec (jsonLines raw), hfil]
    rfl
  · intro v hv
    unfold parseTriples at hv
    exact List.of_mem_filter hv
  · unfold parseTriples
    exact chain_eq_filterMap dec (jsonLines raw)

/-- C10 witness: a block whose lines are `null`, `0`, `false` and one valid
triple line decodes everywhere, yields no warning, and returns only the
triple object. -/
theorem claim10_witness :
    (((jsonLines rawFalsy).all fun l => (demoDecode l).isSome) = true)
    ∧ (parseWarnings demoDecode rawFalsy = []
      ∧ (∀ v ∈ parseTriples demoDecode rawFalsy, truthy v = true)
      ∧ parseTriples demoDecode rawFalsy = (jsonLines rawFalsy).filterMap (fun l =>
          match demoDecode l with
          | Option.some v => if truthy v then Option.some v else Option.none
          | Option.none => Option.none)) :=
  ⟨by decide, claim10_falsy_lines demoDecode rawFalsy (by decide)⟩

/-- C8: within one record's iteration whose model call succeeded, the Graph
Ingestor is invoked if and only if at least one triple was parsed from the
record's output; on zero triples the record is skipped with the
`No triples extracted for record` warning and the graph store is untouched. -/
theorem claim8_ingest_iff_triples (cm : String → Except String String)
    (dec : String → Option JSValue) (fails : Triple → Bool) (st : PipeState)
    (r : CsvRecord) (out : String)
    (hok : cm (buildPrompt (r.publicationTitle.getD "") (r.abstract.getD ""))
      = Except.ok out) :
    ∃ st', recStep cm dec fails st r = Except.ok st'
      ∧ (st'.ingestCalls ≠ st.ingestCalls ↔ (parseTriples dec out).map toTriple ≠ [])
      ∧ ((parseTriples dec out).map toTriple = [] →
          st'.graph = st.graph ∧ st'.sessionsOpened = st.sessionsOpened
          ∧ st'.warns = st.warns ++ parseWarnings dec out
              ++ ["No triples extracted for record"])
      ∧ ((parseTriples dec out).map toTriple ≠ [] →
          st'.ingestCalls = st.ingestCalls ++ [(parseTriples dec out).map toTriple]
          ∧ st'.graph = (ingestTriples fails st.graph ((parseTriples dec out).map toTriple)).1) := by
  by_cases hempty : (parseTriples dec out).map toTriple = []
  · refine ⟨({ st with warns := st.warns ++ parseWarnings dec out
        ++ ["No triples extracted for record"] } : PipeState), ?_, ?_, ?_, ?_⟩
    · simp only [recStep]
      rw [hok]
      have hb : ((parseTriples dec out).map toTriple).isEmpty = true := by
        simp [hempty]
      simp [hb, List.append_assoc]
    · simp [hempty]
    · intro _
      exact ⟨rfl, rfl, by simp [List.append_assoc]⟩
    · intro hne
      exact absurd hempty hne
  · refine ⟨(⟨(ingestTriples fails st.graph ((parseTriples dec out).map toTriple)).1,
        st.warns ++ parseWarnings dec out,
        st.ingestLogs ++ (ingestTriples fails st.graph ((parseTriples dec out).map toTriple)).2,
        st.ingestCalls ++ [(parseTriples dec out).map toTriple],
        st.sessionsOpened + 1, st.sessionsClosed + 1⟩ : PipeState), ?_, ?_, ?_, ?_⟩
    · simp only [recStep]
      rw [hok]
      have hb : ((parseTriples dec out).map toTriple).isEmpty = false := by
        simp [hempty]
      simp [hb]
    · have hneq : st.ingestCalls ++ [(parseTriples dec out).map toTriple] ≠ st.ingestCalls := by
        intro heq
        have := congrArg List.length heq
        simp at this
      exact ⟨fun _ => hempty, fun _ => hneq⟩
    · intro h0
      exact absurd h0 hempty
    · intro _
      exact ⟨rfl, rfl⟩

/-- C8 witness: with a model call returning one triple line, the record's
step invokes the ingestor exactly once with that triple. -/
theorem claim8_witness :
    (cmOk1 (buildPrompt ((rec1.publicationTitle).getD "") ((rec1.abstract).getD ""))
        = Except.ok jsonLine1)
    ∧ (∃ st', recStep cmOk1 demoDecode (fun _ => false) startState rec1 = Except.ok st'
        ∧ (st'.ingestCalls ≠ startState.ingestCalls
            ↔ (parseTriples demoDecode jsonLine1).map toTriple ≠ [])
        ∧ ((parseTriples demoDecode jsonLine1).map toTriple = [] →
            st'.graph = startState.graph
            ∧ st'.sessionsOpened = startState.sessionsOpened
            ∧ st'.warns = startState.warns ++ parseWarnings demoDecode jsonLine1
                ++ ["No triples extracted for record"])
        ∧ ((parseTriples demoDecode jsonLine1).map toTriple ≠ [] →
            st'.ingestCalls = startState.ingestCalls
                ++ [(parseTriples demoDecode jsonLine1).map toTriple]
            ∧ st'.graph = (ingestTriples (fun _ => false) startState.graph
                ((parseTriples demoDecode jsonLine1).map toTriple)).1)) :=
  ⟨rfl, claim8_ingest_iff_triples cmOk1 demoDecode (fun _ => false) startState rec1 jsonLine1 rfl⟩

/-- C7 counterexample: with a remote model that throws a throttling error,
the run over two records aborts with the classified message before any
further record is processed — the orchestrator does NOT catch the failure
and does NOT continue with the next record, contradicting the claim. -/
theorem claim7_counterexample :
    (runPipeline "model-1" rawFail demoDecode (fun _ => false) [rec1, rec2]).aborted
        = Option.some "Request was throttled. Please try again later."
    ∧ (runPipeline "model-1" rawFail demoDecode (fun _ => false) [rec1, rec2]).recordsProcessed
        = 0
    ∧ (runPipeline "model-1" rawFail demoDecode (fun _ => false) [rec1, rec2]).state.ingestCalls
        = [] :=
  ⟨rfl, rfl, rfl⟩

/-- C7 (amended): when the model call fails on a record, the failure is
classified by `handleBedrockError` into a human-readable message, but the
orchestrator does not catch it: the run aborts with that message after the
preceding records, no later record is processed, and the driver is still
closed by the `finally` block. -/
theorem claim7_extraction_aborts_run (modelId : String) (raw : String → Except JsError String)
    (dec : String → Option JSValue) (fails : Triple → Bool)
    (pre : List CsvRecord) (r : CsvRecord) (rest : List CsvRecord) (e : JsError)
    (hpre : ∀ rc ∈ pre, ∃ out,
      raw (buildPrompt (rc.publicationTitle.getD "") (rc.abstract.getD "")) = Except.ok out)
    (hfail : raw (buildPrompt (r.publicationTitle.getD "") (r.abstract.getD ""))
      = Except.error e) :
    (runPipeline modelId raw dec fails (pre ++ r :: rest)).aborted
        = Option.some (handleBedrockError modelId e)
    ∧ (runPipeline modelId raw dec fails (pre ++ r :: rest)).recordsProcessed = pre.length
    ∧ (runPipeline modelId raw dec fails (pre ++ r :: rest)).driverClosed = true := by
  have habort := runRecords_abort (wrapModel modelId raw) dec fails r rest
    (handleBedrockError modelId e)
    (wrapModel_error modelId raw _ e hfail) pre startState
    (fun rc hrc => by
      obtain ⟨out, hout⟩ := hpre rc hrc
      exact ⟨out, wrapModel_ok modelId raw _ out hout⟩)
  refine ⟨?_, ?_, rfl⟩
  · show (runRecords (wrapModel modelId raw) dec fails (pre ++ r :: rest) startState).2.2
        = Option.some (handleBedrockError modelId e)
    rw [habort]
  · show (runRecords (wrapModel modelId raw) dec fails (pre ++ r :: rest) startState).2.1
        = pre.length
    rw [habort]

/-- C7 amended witness: record A succeeds, record B's model call throws a
generic network error; the run aborts after one processed record with the
classified message, and the driver is closed. -/
theorem claim7_amended_witness :
    (∀ rc ∈ [recA], ∃ out,
        rawAB (buildPrompt (rc.publicationTitle.getD "") (rc.abstract.getD ""))
          = Except.ok out)
    ∧ rawAB (buildPrompt ((recB.publicationTitle).getD "") ((recB.abstract).getD ""))
        = Except.error (JsError.error "network down")
    ∧ ((runPipeline "model-1" rawAB demoDecode (fun _ => false) ([recA] ++ recB :: [])).aborted
          = Option.some (handleBedrockError "model-1" (JsError.error "network down"))
      ∧ (runPipeline "model-1" rawAB demoDecode (fun _ => false)
            ([recA] ++ recB :: [])).recordsProcessed = [recA].length
      ∧ (runPipeline "model-1" rawAB demoDecode (fun _ => false)
            ([recA] ++ recB :: [])).driverClosed = true) := by
  have h1 : ∀ rc ∈ [recA], ∃ out,
      rawAB (buildPrompt (rc.publicationTitle.getD "") (rc.abstract.getD ""))
        = Except.ok out := by
    intro rc hrc
    rw [List.mem_singleton] at hrc
    subst hrc
    exact ⟨jsonLine1, by simp [rawAB, recA]⟩
  have h2 : rawAB (buildPrompt ((recB.publicationTitle).getD "") ((recB.abstract).getD ""))
      = Except.error (JsError.error "network down") := by
    simp [rawAB, recB, buildPrompt]
  exact ⟨h1, h2,
    claim7_extraction_aborts_run "model-1" rawAB demoDecode (fun _ => false) [recA] recB []
      (JsError.error "network down") h1 h2⟩

/-- C9 counterexample: a run over two records that each ingest one triple
opens two graph-store sessions (one per `ingestTriples` call), not exactly
one session for the duration of the run, contradicting the claim. -/
theorem claim9_counterexample :
    (runPipeline "model-1" rawOk1 demoDecode (fun _ => false) [rec1, rec2]).state.sessionsOpened
        = 2
    ∧ (runPipeline "model-1" rawOk1 demoDecode
          (fun _ => false) [rec1, rec2]).state.sessionsOpened ≠ 1 := by
  have h2 : (runPipeline "model-1" rawOk1 demoDecode
      (fun _ => false) [rec1, rec2]).state.sessionsOpened = 2 := by decide
  refine ⟨h2, ?_⟩
  rw [h2]
  decide

/-- C9 (amended): sessions are scoped per ingestion call, not per run — on
every run, every opened session has been closed when the run ends (the
`finally` of `ingestTriples` runs on every exit path), exactly one session
was opened per `ingestTriples` call, and the driver itself is closed on
every exit path of the run, aborted or not. -/
theorem claim9_session_per_ingest_call (modelId : String) (raw : String → Except JsError String)
    (dec : String → Option JSValue) (fails : Triple → Bool) (records : List CsvRecord) :
    (runPipeline modelId raw dec fails records).state.sessionsClosed
        = (runPipeline modelId raw dec fails records).state.sessionsOpened
    ∧ (runPipeline modelId raw dec fails records).state.sessionsOpened
        = (runPipeline modelId raw dec fails records).state.ingestCalls.length
    ∧ (runPipeline modelId raw dec fails records).driverClosed = true := by
  have h := runRecords_inv (wrapModel modelId raw) dec fails records startState ⟨rfl, rfl⟩
  exact ⟨h.1, h.2, rfl⟩

end PubGraph
